import Mathlib

/-!
Shallow embedding of `stanutils.py` (functions `prepare_dict`,
`read_one_stan_csv`, `read_stan_csv` and the helper `f7`) together with
theorems settling the specification claims about them.

Input files are modelled as lists of lines; a line is its list of
characters, without the trailing newline.  Numeric sample values are
modelled as exact rationals (`Rat`); the IEEE rounding performed by
`numpy` is out of scope, none of the claims depends on it.  The
`np.empty` buffers of the source are modelled as lists of `Option` rows,
`none` standing for a row that was allocated but never written
(uninitialized memory).  Python exceptions are modelled with `Except`.
-/

set_option autoImplicit false

namespace Stanutils

/-- Characters of one input line (modelled without the trailing newline). -/
abbrev Line := List Char

/-- Kinds of Python exceptions the source functions can raise. -/
inductive Err where
  | keyError
  | valueError
  | indexError
  | nameError
deriving DecidableEq

/-- Boolean test that the first list is an initial segment of the second;
models the `str.startswith` calls of the source. -/
def leadsWith : Line → Line → Bool
  | [], _ => true
  | _ :: _, [] => false
  | c :: p, d :: l => c == d && leadsWith p l

/-- Python `str.strip()`: drop whitespace from both ends. -/
def pyStrip (l : Line) : Line :=
  ((l.dropWhile Char.isWhitespace).reverse.dropWhile Char.isWhitespace).reverse

/-- Python `str.split(c)`: split on every occurrence of `c`; the empty
string yields `[""]` and separators at the ends yield empty parts. -/
def splitOnChar (c : Char) : Line → List Line
  | [] => [[]]
  | x :: t =>
    let parts := splitOnChar c t
    if x == c then [] :: parts
    else
      match parts with
      | [] => [[x]]
      | h :: r => (x :: h) :: r

/-- The substitution `re.sub('\#|\(Default\)', '', line)` of the source:
delete every `#` character and every literal `(Default)` substring,
scanning left to right. -/
def findReplaceSub : Line → Line
  | [] => []
  | '#' :: t => findReplaceSub t
  | '(' :: 'D' :: 'e' :: 'f' :: 'a' :: 'u' :: 'l' :: 't' :: ')' :: t => findReplaceSub t
  | c :: t => c :: findReplaceSub t

/-- Numeric value of a list of decimal digit characters. -/
def natOfDigits (l : Line) : Nat :=
  l.foldl (fun a c => a * 10 + (c.toNat - 48)) 0

/-- Python `int(str)` on a decimal string: surrounding whitespace and an
optional sign are accepted, anything else raises `ValueError`. -/
def pyInt (l : Line) : Except Err Int :=
  let s := pyStrip l
  let p : Int × Line :=
    match s with
    | '-' :: t => (-1, t)
    | '+' :: t => (1, t)
    | _ => (1, s)
  if !p.2.isEmpty && p.2.all Char.isDigit then
    .ok (p.1 * natOfDigits p.2)
  else .error .valueError

/-- Python `float(str)` restricted to finite decimal literals with an
optional fraction and exponent, evaluated exactly in `Rat`. -/
def pyFloat (l : Line) : Except Err Rat :=
  let s := pyStrip l
  let ps : Int × Line :=
    match s with
    | '-' :: t => (-1, t)
    | '+' :: t => (1, t)
    | _ => (1, s)
  let ip := ps.2.takeWhile Char.isDigit
  let r1 := ps.2.drop ip.length
  let pf : Line × Line :=
    match r1 with
    | '.' :: t => (t.takeWhile Char.isDigit, t.drop (t.takeWhile Char.isDigit).length)
    | _ => ([], r1)
  if ip.isEmpty && pf.1.isEmpty then .error .valueError
  else
    let pe : Bool × Int × Line :=
      match pf.2 with
      | 'e' :: t | 'E' :: t =>
        let pse : Int × Line :=
          match t with
          | '-' :: u => (-1, u)
          | '+' :: u => (1, u)
          | _ => (1, t)
        let ds := pse.2.takeWhile Char.isDigit
        if ds.isEmpty then (false, 0, pse.2)
        else (true, pse.1 * natOfDigits ds, pse.2.drop ds.length)
      | _ => (true, 0, pf.2)
    if !pe.1 || !pe.2.2.isEmpty then .error .valueError
    else
      let shift : Int := pe.2.1 - pf.1.length
      let mant : Int := ps.1 * natOfDigits (ip ++ pf.1)
      if 0 ≤ shift then .ok (mkRat (mant * (10 : Int) ^ shift.toNat) 1)
      else .ok (mkRat mant ((10 : Nat) ^ (-shift).toNat))

/-- State of the scanner implementing `re.findall('\.(\d+)', s)`. -/
inductive ScanSt where
  | normal
  | afterDot
  | inNum (n : Nat)

/-- Scanner for `re.findall('\.(\d+)', s)`: walks the string collecting
every maximal digit run that immediately follows a dot. -/
def extractIntsAux : ScanSt → Line → List Nat
  | .normal, [] => []
  | .afterDot, [] => []
  | .inNum n, [] => [n]
  | .normal, c :: t =>
    if c == '.' then extractIntsAux .afterDot t else extractIntsAux .normal t
  | .afterDot, c :: t =>
    if c.isDigit then extractIntsAux (.inNum (c.toNat - 48)) t
    else if c == '.' then extractIntsAux .afterDot t
    else extractIntsAux .normal t
  | .inNum n, c :: t =>
    if c.isDigit then extractIntsAux (.inNum (n * 10 + (c.toNat - 48))) t
    else if c == '.' then n :: extractIntsAux .afterDot t
    else n :: extractIntsAux .normal t

/-- The `re.findall('\.(\d+)', s)` of `prepare_dict`: the 1-based indices
embedded in a flattened column name, in order. -/
def extractInts (l : Line) : List Nat :=
  extractIntsAux .normal l

/-- Acceptance test for the tail that follows the base name in the
pattern `base(\..+)?$`: the remainder must be empty, or a dot followed by
at least one further character. -/
def tailOk : Line → Bool
  | [] => true
  | c :: rest => c == '.' && !rest.isEmpty

/-- The `re.compile(i + '(\..+)?$').search(l)` of `prepare_dict`, returning
`m.group(0)` of the leftmost match: the pattern is searched anywhere in
`l` (not anchored at the start), and a match always extends to the end of
the line. -/
def reSearch (b : Line) : Line → Option Line
  | [] =>
    match b with
    | [] => some []
    | _ :: _ => none
  | l@(_ :: t) =>
    if leadsWith b l && tailOk (l.drop b.length) then some (b ++ l.drop b.length)
    else reSearch b t

/-- The helper `f7` of the source with its `seen` set made explicit:
stable deduplication, keeping the first occurrence of each entry. -/
def f7Aux (seen : List Line) : List Line → List Line
  | [] => []
  | x :: t => if x ∈ seen then f7Aux seen t else x :: f7Aux (x :: seen) t

/-- The helper `f7` of the source: unique entries of a list, in first-seen
order. -/
def f7 (l : List Line) : List Line :=
  f7Aux [] l

/-- A numpy array of rank at least 1.  Leaf cells are `Option Rat`:
`some q` is a stored value, `none` is a cell that still holds the
uninitialized contents of an `np.empty` allocation. -/
inductive NArr where
  | vec (cells : List (Option Rat))
  | arr (subs : List NArr)

/-- The `np.zeros(dims)` allocation of `prepare_dict`: a zero-filled
array whose shape is the given (non-empty) dimension list. -/
def zerosCont : List Nat → NArr
  | [] => .vec []
  | [n] => .vec (List.replicate n (some 0))
  | d :: rest => .arr (List.replicate d (zerosCont rest))

/-- Effective numpy index: negative indices count from the end; anything
out of range raises `IndexError`. -/
def effIdx (i : Int) (n : Nat) : Except Err Nat :=
  if 0 ≤ i ∧ i < n then .ok i.toNat
  else if -(n : Int) ≤ i ∧ i < 0 then .ok (n - (-i).toNat)
  else .error .indexError

mutual

/-- Numpy assignment of a 1-D value into a (sub)array slot: at a leaf the
lengths must agree (a length-1 value broadcasts); into a higher-rank slot
the value is broadcast across every leaf. -/
def broadcastInto (col : List (Option Rat)) : NArr → Except Err NArr
  | .vec cells =>
    if col.length = cells.length then .ok (.vec col)
    else if col.length = 1 then .ok (.vec (List.replicate cells.length (col.headD none)))
    else .error .valueError
  | .arr subs => do
    let subs' ← broadcastIntoList col subs
    .ok (.arr subs')

/-- Pointwise `broadcastInto` over the sub-arrays of a rank-2+ slot. -/
def broadcastIntoList (col : List (Option Rat)) : List NArr → Except Err (List NArr)
  | [] => .ok []
  | a :: t => do
    let a' ← broadcastInto col a
    let t' ← broadcastIntoList col t
    .ok (a' :: t')

end

/-- The indexed assignments `arr[i] = col` and `arr[i][j] = col` of the
scatter step: navigate the given indices, then assign `col` into the slot
reached (an indexed cell of a 1-D array only accepts a length-1 value). -/
def navAssign (col : List (Option Rat)) : NArr → List Int → Except Err NArr
  | a, [] => broadcastInto col a
  | .arr subs, i :: rest => do
    let i' ← effIdx i subs.length
    match subs.get? i' with
    | none => .error .indexError
    | some sub => do
      let sub' ← navAssign col sub rest
      .ok (.arr (subs.set i' sub'))
  | .vec cells, [i] => do
    let i' ← effIdx i cells.length
    if col.length = 1 then .ok (.vec (cells.set i' (col.headD none)))
    else .error .valueError
  | .vec _, _ :: _ :: _ => .error .indexError

/-- Lookup in an association list with string (`Line`) keys, first match
wins; models Python dictionary lookup in this development. -/
def alookup {β : Type} (k : Line) : List (Line × β) → Option β
  | [] => none
  | (k', v) :: t => if k' = k then some v else alookup k t

/-- Overwrite-or-append update of an association list; models Python
dictionary assignment `d[k] = v`. -/
def aset {β : Type} (m : List (Line × β)) (k : Line) (v : β) : List (Line × β) :=
  if (alookup k m).isSome then m.map (fun p => if p.1 = k then (k, v) else p)
  else m ++ [(k, v)]

/-- One entry of the `header_name_to_merged` map of `prepare_dict`: the
base name and the zero-based indices of the column. -/
abbrev MapEntry := Line × List Int

/-- The per-base loop of `prepare_dict`: for each base name, collect the
`group(0)` values of the matching header entries, allocate a zero-filled
container shaped after the last match (raising `IndexError` on an empty
match list, as `match_idx[-1]` does), and record every match in the
`header_name_to_merged` map. -/
def buildExtract (header : List Line) (nsamples : Nat) :
    List Line → List (Line × MapEntry) →
    Except Err (List (Line × NArr) × List (Line × MapEntry))
  | [], hmap => .ok ([], hmap)
  | i :: restBases, hmap =>
    let matchIdx := header.filterMap (fun l => reSearch i l)
    match matchIdx.getLast? with
    | none => .error .indexError
    | some e =>
      let dims := extractInts e ++ [nsamples]
      let hmap' := matchIdx.foldl
        (fun m j => aset m j (i, (extractInts j).map (fun x : Nat => (x : Int) - 1))) hmap
      match buildExtract header nsamples restBases hmap' with
      | .error err => .error err
      | .ok r => .ok ((i, zerosCont dims) :: r.1, r.2)

/-- The source's `prepare_dict(header, nsamples)`: derive the base names
with `f7`, then build the ordered container mapping (`Extract`) and the
column-name map (`header_name_to_merged`). -/
def prepare_dict (header : List Line) (nsamples : Nat) :
    Except Err (List (Line × NArr) × List (Line × MapEntry)) :=
  buildExtract header nsamples (f7 (header.map (fun x => (splitOnChar '.' x).headD []))) []

/-- Column `idx` of the draws buffer, as read by `draws[:, idx]`: a row
never written (`none`) contributes an uninitialized cell. -/
def columnOf (draws : List (Option (List Rat))) (idx : Nat) : List (Option Rat) :=
  draws.map (fun r => r.bind (fun row => row.get? idx))

/-- The scatter loop shared by both readers (source lines 189-204 and
286-301): for each header column look up its base and indices and assign
the column into the container.  For an index list of length 0 the source
rebinds the local variable `arr` only, so the container mapping is left
unchanged; for length above 2 it raises `ValueError`. -/
def scatterAll (header : List Line) (hmap : List (Line × MapEntry))
    (ext0 : List (Line × NArr)) (draws : List (Option (List Rat))) :
    Except Err (List (Line × NArr)) :=
  header.enum.foldlM
    (fun ext p => do
      match alookup p.2 hmap with
      | none => .error .indexError
      | some me =>
        match alookup me.1 ext with
        | none => .error .keyError
        | some a =>
          let col := columnOf draws p.1
          if me.2.length = 2 ∨ me.2.length = 1 then do
            let a' ← navAssign col a me.2
            .ok (ext.map (fun q => if q.1 = me.1 then (me.1, a') else q))
          else if me.2.length = 0 then .ok ext
          else .error .valueError)
    ext0

/-- The translate-to-OrderedDict step both readers share (source lines
188-206 and 284-303): build the containers and the column map with
`prepare_dict`, then scatter the buffer columns into the containers. -/
def groupScatter (header : List Line) (nsamples : Nat)
    (draws : List (Option (List Rat))) : Except Err (List (Line × NArr)) :=
  match prepare_dict header nsamples with
  | .error e => .error e
  | .ok r => scatterAll header r.2 r.1 draws

/-- An attribute line of the comment preamble, as both readers parse it:
strip `#` characters and the `(Default)` suffix, strip whitespace, split on
`=` (the tuple unpacking `key, val = ...` raises `ValueError` unless the
split yields exactly two parts), and strip both parts. -/
def parseAttrLine (line : Line) : Except Err (Line × Line) :=
  match splitOnChar '=' (pyStrip (findReplaceSub line)) with
  | [k, v] => .ok (pyStrip k, pyStrip v)
  | _ => .error .valueError

/-- The `line.startswith('#')` test of the source. -/
def startsWithHash (l : Line) : Bool :=
  leadsWith "#".data l

/-- The `line.startswith('lp')` test of `read_stan_csv`. -/
def startsWithLp (l : Line) : Bool :=
  leadsWith "lp".data l

/-- The `line.startswith('# Adaptation terminated')` sentinel test of
`read_stan_csv`. -/
def sentinelMark (l : Line) : Bool :=
  leadsWith "# Adaptation terminated".data l

/-- The `find_equal.search(line)` test: the line contains an `=` sign. -/
def containsEq (l : Line) : Bool :=
  l.contains '='

/-- The loop state of `read_one_stan_csv`: the `comment_line`, `header`,
`attributes`, `niter`, draws-buffer and `summary_flag` variables.  The
buffer is kept as its capacity `cap` plus the list of rows written so
far. -/
structure OneState where
  commentLine : Bool := true
  header : Option (List Line) := none
  attrs : List (Line × Line) := []
  niter : Nat := 0
  cap : Nat := 0
  rows : List (List Rat) := []
  summaryFlag : Bool := true

/-- The numpy row assignment `draws[n, :] = vals` of `read_one_stan_csv`:
every token is converted to a number and the row must be as wide as the
header (a single value broadcasts across the row). -/
def parseRowOne (ncols : Nat) (vals : List Line) : Except Err (List Rat) := do
  let rs ← vals.mapM pyFloat
  if rs.length = ncols then .ok rs
  else if rs.length = 1 then .ok (List.replicate ncols (rs.headD 0))
  else .error .valueError

/-- One iteration of the line loop of `read_one_stan_csv`, with the
source's branch order: header line (first non-comment line while in the
preamble, requiring `output_samples` and allocating the buffer), attribute
line, data line (the first data line is discarded when `summary` is
false), other comment lines ignored. -/
def stepOne (summary : Bool) (st : OneState) (line : Line) : Except Err OneState :=
  if !startsWithHash line && st.commentLine then
    match alookup "output_samples".data st.attrs with
    | none => .error .keyError
    | some v =>
      match pyInt v with
      | .error e => .error e
      | .ok n =>
        if n < 0 then .error .valueError
        else .ok { st with
          commentLine := false
          header := some (splitOnChar ',' (pyStrip line))
          niter := n.toNat
          cap := if summary then n.toNat + 1 else n.toNat }
  else if st.commentLine && containsEq line then
    match parseAttrLine line with
    | .error e => .error e
    | .ok kv => .ok { st with attrs := kv :: st.attrs }
  else if !st.commentLine then
    if !summary && st.summaryFlag then .ok { st with summaryFlag := false }
    else
      match st.header with
      | none => .error .nameError
      | some hdr =>
        match parseRowOne hdr.length (splitOnChar ',' (pyStrip line)) with
        | .error e => .error e
        | .ok row =>
          if st.rows.length < st.cap then .ok { st with rows := st.rows ++ [row] }
          else .error .indexError
  else .ok st

/-- The `for line in fh` loop of `read_one_stan_csv`: fold `stepOne` over
the lines, stopping at the first raised exception. -/
def readOneLoop (summary : Bool) : OneState → List Line → Except Err OneState
  | st, [] => .ok st
  | st, line :: rest =>
    match stepOne summary st line with
    | .error e => .error e
    | .ok st' => readOneLoop summary st' rest

/-- The source's `read_one_stan_csv(csvfile, summary)`, on the lines of
the file: run the line loop, then build the containers with
`prepare_dict(header, niter)` and scatter the buffer columns into them.
Rows the loop never wrote remain uninitialized (`none`) in the buffer. -/
def read_one_stan_csv (lines : List Line) (summary : Bool) :
    Except Err (List (Line × NArr) × List (Line × Line)) :=
  match readOneLoop summary {} lines with
  | .error e => .error e
  | .ok st =>
    match st.header with
    | none => .error .nameError
    | some header =>
      let draws := st.rows.map some ++ List.replicate (st.cap - st.rows.length) none
      match groupScatter header st.niter draws with
      | .error e => .error e
      | .ok ext => .ok (ext, st.attrs)

/-- The first loop of `read_stan_csv`: scan the first file for attribute
lines until the first non-comment line, which is split into the header.
If the file has no non-comment line the source falls off the loop with
`header` unbound and raises `NameError`. -/
def scanFirst (attrs : List (Line × Line)) :
    List Line → Except Err (List Line × List (Line × Line))
  | [] => .error .nameError
  | line :: rest =>
    if !startsWithHash line then .ok (splitOnChar ',' (pyStrip line), attrs)
    else if containsEq line then
      match parseAttrLine line with
      | .error e => .error e
      | .ok kv => scanFirst (kv :: attrs) rest
    else scanFirst attrs rest

/-- The numpy row assignment `draws[n_current_iter, :] = vals` of
`read_stan_csv`: every token must convert and the row must match the
header width (the `len(vals) <= 1` guard ran before, so no length-1
broadcast arises here). -/
def parseRowMulti (ncols : Nat) (vals : List Line) : Except Err (List Rat) := do
  let rs ← vals.mapM pyFloat
  if rs.length = ncols then .ok rs else .error .valueError

/-- The per-file line loop of `read_stan_csv`, with the source's branch
order: the sentinel line ends the warm-up phase and then falls through to
the data path (where its commaless text is dropped by the `len(vals) <= 1`
guard); lines starting with `#` or `lp` are skipped; while in the warm-up
phase with `warmup` false, lines are discarded; otherwise the line is a
data row appended at the next free buffer index, `IndexError` past the
buffer capacity. -/
def chainLoop (warmup : Bool) (ncols cap : Nat) :
    Bool → List (List Rat) → List Line → Except Err (List (List Rat))
  | _, rows, [] => .ok rows
  | ws, rows, line :: rest =>
    if sentinelMark line then
      let vals := splitOnChar ',' (pyStrip line)
      if vals.length ≤ 1 then chainLoop warmup ncols cap false rows rest
      else
        match parseRowMulti ncols vals with
        | .error e => .error e
        | .ok row =>
          if rows.length < cap then chainLoop warmup ncols cap false (rows ++ [row]) rest
          else .error .indexError
    else if startsWithHash line || startsWithLp line then
      chainLoop warmup ncols cap ws rows rest
    else if !warmup && ws then chainLoop warmup ncols cap ws rows rest
    else
      let vals := splitOnChar ',' (pyStrip line)
      if vals.length ≤ 1 then chainLoop warmup ncols cap ws rows rest
      else
        match parseRowMulti ncols vals with
        | .error e => .error e
        | .ok row =>
          if rows.length < cap then chainLoop warmup ncols cap ws (rows ++ [row]) rest
          else .error .indexError

/-- The `for mcmc_file in csvfiles` loop of `read_stan_csv`: run the
per-file line loop on each file in order, carrying the written rows (the
row cursor) across files; `WARMUP_STEP` restarts as true for each file. -/
def chainFold (warmup : Bool) (ncols cap : Nat) :
    List (List Rat) → List (List Line) → Except Err (List (List Rat))
  | rows, [] => .ok rows
  | rows, f :: fs =>
    match chainLoop warmup ncols cap true rows f with
    | .error e => .error e
    | .ok rows' => chainFold warmup ncols cap rows' fs

/-- The reading phase of `read_stan_csv`: header and attributes from the
first file, iteration count and buffer capacity from `num_samples`,
`num_warmup` and the chain count, then the per-file loops, run over the
files in order with the row cursor carried across files.  Returns the
header, the attributes, the buffer capacity and the draws buffer, whose
unwritten trailing rows are uninitialized (`none`). -/
def readStanDraws (files : List (List Line)) (warmup : Bool) :
    Except Err (List Line × List (Line × Line) × Nat × List (Option (List Rat))) :=
  match files with
  | [] => .error .indexError
  | f0 :: _ =>
    match scanFirst [] f0 with
    | .error e => .error e
    | .ok hs =>
      match alookup "num_samples".data hs.2 with
      | none => .error .keyError
      | some v1 =>
        match pyInt v1 with
        | .error e => .error e
        | .ok nsamples =>
          match alookup "num_warmup".data hs.2 with
          | none => .error .keyError
          | some v2 =>
            match pyInt v2 with
            | .error e => .error e
            | .ok nwarmup =>
              let niter : Int := nsamples + (if warmup then nwarmup else 0)
              let capI : Int := niter * files.length
              if capI < 0 then .error .valueError
              else
                let cap := capI.toNat
                match chainFold warmup hs.1.length cap [] files with
                | .error e => .error e
                | .ok rows =>
                  .ok (hs.1, hs.2, cap,
                    rows.map some ++ List.replicate (cap - rows.length) none)

/-- The source's `read_stan_csv(csvfiles, warmup)`, on the lines of the
files: read the draws buffer, then build the containers with
`prepare_dict(header, niter * nchains)` and scatter the buffer columns
into them. -/
def read_stan_csv (files : List (List Line)) (warmup : Bool) :
    Except Err (List (Line × NArr) × List (Line × Line)) :=
  match readStanDraws files warmup with
  | .error e => .error e
  | .ok d =>
    match groupScatter d.1 d.2.2.1 d.2.2.2 with
    | .error e => .error e
    | .ok ext => .ok (ext, d.2.1)

/-- The value of an `Except` computation that succeeded. -/
def exOk {α : Type} : Except Err α → Option α
  | .ok a => some a
  | .error _ => none

/-- The error of an `Except` computation that failed. -/
def errOf {α : Type} : Except Err α → Option Err
  | .error e => some e
  | .ok _ => none

/-- Specification of the attribute accumulation both readers perform over
a comment preamble: parse every line containing `=` and prepend the pair
(lookup is first-match, so the newest binding wins, as in a dict). -/
def foldAttrs (a : List (Line × Line)) : List Line → Except Err (List (Line × Line))
  | [] => .ok a
  | l :: t =>
    if containsEq l then
      match parseAttrLine l with
      | .error e => .error e
      | .ok kv => foldAttrs (kv :: a) t
    else foldAttrs a t

/-- The data rows one chain file contributes in `read_stan_csv`, with the
same branch structure as `chainLoop` but no buffer capacity: the rows the
per-file loop would append when the buffer has room for all of them. -/
def acceptedRows (warmup : Bool) (ncols : Nat) :
    Bool → List Line → Except Err (List (List Rat))
  | _, [] => .ok []
  | ws, line :: rest =>
    if sentinelMark line then
      let vals := splitOnChar ',' (pyStrip line)
      if vals.length ≤ 1 then acceptedRows warmup ncols false rest
      else
        match parseRowMulti ncols vals with
        | .error e => .error e
        | .ok row =>
          match acceptedRows warmup ncols false rest with
          | .error e => .error e
          | .ok d => .ok (row :: d)
    else if startsWithHash line || startsWithLp line then acceptedRows warmup ncols ws rest
    else if !warmup && ws then acceptedRows warmup ncols ws rest
    else
      let vals := splitOnChar ',' (pyStrip line)
      if vals.length ≤ 1 then acceptedRows warmup ncols ws rest
      else
        match parseRowMulti ncols vals with
        | .error e => .error e
        | .ok row =>
          match acceptedRows warmup ncols ws rest with
          | .error e => .error e
          | .ok d => .ok (row :: d)

/-! ## Theorems -/

/-- A prefix test succeeds exactly when the tested list extends the
pattern. -/
theorem leadsWith_iff (p : Line) : ∀ (l : Line), leadsWith p l = true ↔ ∃ t, l = p ++ t := by
  induction p with
  | nil => intro l; simp [leadsWith]
  | cons c p ih =>
    intro l
    cases l with
    | nil =>
      simp [leadsWith]
    | cons d l =>
      simp only [leadsWith, Bool.and_eq_true, beq_iff_eq, List.cons_append, List.cons.injEq]
      constructor
      · rintro ⟨rfl, h⟩
        obtain ⟨t, rfl⟩ := (ih l).1 h
        exact ⟨t, rfl, rfl⟩
      · rintro ⟨t, rfl, rfl⟩
        exact ⟨rfl, (ih (p ++ t)).2 ⟨t, rfl⟩⟩

/-- The tail test of the pattern `(\..+)?$` holds exactly for the empty
remainder or a dot followed by at least one character. -/
theorem tailOk_iff (s : Line) :
    tailOk s = true ↔ s = [] ∨ ∃ c t, s = '.' :: c :: t := by
  match s with
  | [] => simp [tailOk]
  | [c] => simp [tailOk]
  | c :: r :: rs =>
    simp only [tailOk, List.isEmpty_cons, Bool.not_false, Bool.and_true, beq_iff_eq]
    constructor
    · rintro rfl
      exact Or.inr ⟨r, rs, rfl⟩
    · rintro (h | ⟨a, t, h⟩)
      · exact absurd h (List.cons_ne_nil _ _)
      · cases h
        rfl

/-- Claim C5, amended: a column name contributes a match for base `b`
exactly when `b` occurs somewhere in it followed immediately by the end
of the string or by a dot with at least one further character.  The end
is anchored (so a mere prefix such as `sigma` in `sigma_sq.1` never
matches), but the start is not (`re.search`), so a base occurring as an
inner substring with a dot-or-end tail is still captured, and the dotted
tail may be any characters, not only digit groups. -/
theorem c5_match_characterization (b l : Line) :
    (reSearch b l).isSome = true ↔
      ∃ pre suf, l = pre ++ b ++ suf ∧ (suf = [] ∨ ∃ c t, suf = '.' :: c :: t) := by
  induction l with
  | nil =>
    cases b with
    | nil => exact ⟨fun _ => ⟨[], [], rfl, Or.inl rfl⟩, fun _ => rfl⟩
    | cons c t =>
      constructor
      · intro h
        exact absurd h (by simp [reSearch])
      · rintro ⟨pre, suf, h, _⟩
        exact absurd h.symm (by simp)
  | cons x xs ih =>
    rw [reSearch]
    cases hc : leadsWith b (x :: xs) && tailOk ((x :: xs).drop b.length) with
    | true =>
      simp only [eq_self_iff_true, if_true, Option.isSome_some, true_iff]
      have hc' := hc
      rw [Bool.and_eq_true] at hc'
      obtain ⟨hl, ht⟩ := hc'
      obtain ⟨t, hteq⟩ := (leadsWith_iff b (x :: xs)).1 hl
      refine ⟨[], t, by simpa using hteq, ?_⟩
      rw [hteq, List.drop_left] at ht
      exact (tailOk_iff t).1 ht
    | false =>
      simp only [Bool.false_eq_true, if_false]
      rw [ih]
      constructor
      · rintro ⟨pre, suf, rfl, hsuf⟩
        exact ⟨x :: pre, suf, rfl, hsuf⟩
      · rintro ⟨pre, suf, heq, hsuf⟩
        match pre, heq with
        | [], heq =>
          exfalso
          have hl : leadsWith b (x :: xs) = true :=
            (leadsWith_iff b (x :: xs)).2 ⟨suf, by simpa using heq⟩
          have ht : tailOk ((x :: xs).drop b.length) = true := by
            have hx : (x :: xs) = b ++ suf := by simpa using heq
            rw [hx, List.drop_left]
            exact (tailOk_iff suf).2 hsuf
          rw [hl, ht] at hc
          simp at hc
        | p :: pre, heq =>
          injection heq with h1 h2
          exact ⟨pre, suf, h2, hsuf⟩

/-- Witness for the amended C5 at concrete inputs: `sigma` does not match
`sigma_sq.1` (prefix collisions stay rejected) and `mu` does match
`sigmu` via the inner occurrence with empty tail. -/
theorem c5_match_characterization_witness :
    ((reSearch "sigma".data "sigma_sq.1".data).isSome = true ↔
      ∃ pre suf, "sigma_sq.1".data = pre ++ "sigma".data ++ suf ∧
        (suf = [] ∨ ∃ c t, suf = '.' :: c :: t)) ∧
    ((reSearch "mu".data "sigmu".data).isSome = true ↔
      ∃ pre suf, "sigmu".data = pre ++ "mu".data ++ suf ∧
        (suf = [] ∨ ∃ c t, suf = '.' :: c :: t)) :=
  ⟨c5_match_characterization "sigma".data "sigma_sq.1".data,
   c5_match_characterization "mu".data "sigmu".data⟩

/-- When every successful search returns the whole column name, the list
of match groups is the list of matching column names. -/
theorem filterMap_reSearch_eq_filter (b : Line) :
    ∀ (hs : List Line), (∀ l ∈ hs, ∀ g, reSearch b l = some g → g = l) →
      hs.filterMap (fun l => reSearch b l) = hs.filter (fun l => (reSearch b l).isSome) := by
  intro hs
  induction hs with
  | nil => intro _; rfl
  | cons l t ih =>
    intro h
    have ht := ih (fun x hx => h x (List.mem_cons_of_mem _ hx))
    cases hg : reSearch b l with
    | none => simp [List.filterMap_cons, List.filter_cons, hg, ht]
    | some g =>
      have hgl : g = l := h l (List.mem_cons_self _ _) g hg
      simp [List.filterMap_cons, List.filter_cons, hg, hgl, ht]

/-- In the per-base loop, the container recorded for a base is the
zero-filled array shaped after the last match group of that base, with
`nsamples` appended as the trailing extent. -/
theorem buildExtract_lookup (header : List Line) (n : Nat) (b : Line) :
    ∀ (bases : List Line) (m0 : List (Line × MapEntry)) (ext : List (Line × NArr))
      (hm : List (Line × MapEntry)),
      b ∈ bases →
      buildExtract header n bases m0 = .ok (ext, hm) →
      alookup b ext
        = some (zerosCont (extractInts
            ((header.filterMap fun l => reSearch b l).getLastD []) ++ [n])) := by
  intro bases
  induction bases with
  | nil => intro m0 ext hm hb _; exact absurd hb (List.not_mem_nil b)
  | cons i rest ih =>
    intro m0 ext hm hb hok
    simp only [buildExtract] at hok
    cases hlast : (header.filterMap fun l => reSearch i l).getLast? with
    | none =>
      rw [hlast] at hok
      exact absurd hok (by simp)
    | some e =>
      rw [hlast] at hok
      cases hrec : buildExtract header n rest
          ((header.filterMap fun l => reSearch i l).foldl
            (fun m j => aset m j (i, (extractInts j).map (fun x : Nat => (x : Int) - 1))) m0) with
      | error err =>
        rw [hrec] at hok
        exact absurd hok (by simp)
      | ok r =>
        rw [hrec] at hok
        simp only [Except.ok.injEq, Prod.mk.injEq] at hok
        obtain ⟨hext, hhm⟩ := hok
        by_cases hbi : i = b
        · subst hbi
          rw [← hext]
          have he : (header.filterMap fun l => reSearch i l).getLastD [] = e := by
            rw [List.getLastD_eq_getLast?, hlast]
            rfl
          rw [he]
          simp [alookup]
        · have hbrest : b ∈ rest := by
            cases List.mem_cons.mp hb with
            | inl h => exact absurd h.symm hbi
            | inr h => exact h
          rw [← hext]
          have : alookup b ((i, zerosCont (extractInts e ++ [n])) :: r.1) = alookup b r.1 := by
            simp [alookup, hbi]
          rw [this]
          exact ih _ r.1 r.2 hbrest (by rw [hrec])

/-- Claim C4: for every base parameter, the grouper takes the last
matching column name as authoritative for its shape - the embedded
1-based integers of that name are the per-dimension extents, `nsamples`
is appended as the trailing extent, and a zero-filled container of
exactly this shape is bound to the base.  Stated for headers on which
every match group is the whole column name (no substring capture), so
that "last matching column name" is well defined. -/
theorem c4_last_match_shape (header : List Line) (nsamples : Nat) (b : Line)
    (ext : List (Line × NArr)) (hmap : List (Line × MapEntry))
    (hok : prepare_dict header nsamples = .ok (ext, hmap))
    (hb : b ∈ f7 (header.map (fun x => (splitOnChar '.' x).headD [])))
    (hfull : (header.all fun l => ((reSearch b l).getD l) == l) = true) :
    alookup b ext
      = some (zerosCont (extractInts
          ((header.filter (fun l => (reSearch b l).isSome)).getLastD []) ++ [nsamples])) := by
  have hfull' : ∀ l ∈ header, ∀ g, reSearch b l = some g → g = l := by
    intro l hl g hg
    have hx := List.all_eq_true.mp hfull l hl
    rw [hg] at hx
    exact eq_of_beq hx
  have h1 := buildExtract_lookup header nsamples b
    (f7 (header.map (fun x => (splitOnChar '.' x).headD []))) [] ext hmap hb hok
  rw [filterMap_reSearch_eq_filter b header hfull'] at h1
  exact h1

/-- Witness for C4: header `["mu","sigma.1","sigma.2"]` with 5 samples;
the last matching column for `sigma` is `sigma.2`, giving the zero
container of shape `(2,5)`. -/
theorem c4_last_match_shape_witness :
    alookup "sigma".data
        [("mu".data, zerosCont [5]), ("sigma".data, zerosCont [2, 5])]
      = some (zerosCont [2, 5]) :=
  c4_last_match_shape ["mu".data, "sigma.1".data, "sigma.2".data] 5 "sigma".data
    [("mu".data, zerosCont [5]), ("sigma".data, zerosCont [2, 5])]
    [("mu".data, ("mu".data, [])), ("sigma.1".data, ("sigma".data, [0])),
     ("sigma.2".data, ("sigma".data, [1]))]
    rfl (by decide) (by decide)

/-- Running the single-chain line loop over comment lines only
accumulates attributes and otherwise leaves the initial state unchanged:
no header is taken and no data row is stored. -/
theorem readOneLoop_preamble (summary : Bool) :
    ∀ (pre : List Line) (a A : List (Line × Line)),
      (∀ l ∈ pre, startsWithHash l = true) →
      foldAttrs a pre = .ok A →
      readOneLoop summary ⟨true, none, a, 0, 0, [], true⟩ pre
        = .ok ⟨true, none, A, 0, 0, [], true⟩ := by
  intro pre
  induction pre with
  | nil =>
    intro a A _ hfa
    simp only [foldAttrs, Except.ok.injEq] at hfa
    rw [hfa]
    rfl
  | cons l t ih =>
    intro a A hpre hfa
    have hl : startsWithHash l = true := hpre l (List.mem_cons_self _ _)
    have hpt : ∀ x ∈ t, startsWithHash x = true :=
      fun x hx => hpre x (List.mem_cons_of_mem _ hx)
    rw [foldAttrs] at hfa
    cases hce : containsEq l with
    | false =>
      rw [hce] at hfa
      simp only [Bool.false_eq_true, if_false] at hfa
      have hstep : readOneLoop summary ⟨true, none, a, 0, 0, [], true⟩ (l :: t)
          = readOneLoop summary ⟨true, none, a, 0, 0, [], true⟩ t := by
        rw [readOneLoop]
        have hs : stepOne summary ⟨true, none, a, 0, 0, [], true⟩ l
            = .ok ⟨true, none, a, 0, 0, [], true⟩ := by
          simp [stepOne, hl, hce]
        rw [hs]
      rw [hstep]
      exact ih a A hpt hfa
    | true =>
      rw [hce] at hfa
      simp only [if_true] at hfa
      cases hp : parseAttrLine l with
      | error e =>
        rw [hp] at hfa
        exact absurd hfa (by simp)
      | ok kv =>
        rw [hp] at hfa
        have hstep : readOneLoop summary ⟨true, none, a, 0, 0, [], true⟩ (l :: t)
            = readOneLoop summary ⟨true, none, kv :: a, 0, 0, [], true⟩ t := by
          rw [readOneLoop]
          have hs : stepOne summary ⟨true, none, a, 0, 0, [], true⟩ l
              = .ok ⟨true, none, kv :: a, 0, 0, [], true⟩ := by
            simp [stepOne, hl, hce, hp]
          rw [hs]
        rw [hstep]
        exact ih (kv :: a) A hpt hfa

/-- The single-chain line loop distributes over list append. -/
theorem readOneLoop_append (summary : Bool) :
    ∀ (xs ys : List Line) (st : OneState),
      readOneLoop summary st (xs ++ ys)
        = (match readOneLoop summary st xs with
           | .error e => .error e
           | .ok st' => readOneLoop summary st' ys) := by
  intro xs
  induction xs with
  | nil => intro ys st; rfl
  | cons x xs ih =>
    intro ys st
    rw [List.cons_append, readOneLoop, readOneLoop]
    cases stepOne summary st x with
    | error e => rfl
    | ok st' => exact ih ys st'

/-- Scanning the first multi-chain file over a comment preamble
accumulates attributes until the first non-comment line, which becomes
the header. -/
theorem scanFirst_preamble :
    ∀ (pre : List Line) (hline : Line) (rest : List Line) (a A : List (Line × Line)),
      (∀ l ∈ pre, startsWithHash l = true) →
      startsWithHash hline = false →
      foldAttrs a pre = .ok A →
      scanFirst a (pre ++ hline :: rest)
        = .ok (splitOnChar ',' (pyStrip hline), A) := by
  intro pre
  induction pre with
  | nil =>
    intro hline rest a A _ hhl hfa
    simp only [foldAttrs, Except.ok.injEq] at hfa
    rw [List.nil_append, scanFirst, hhl]
    simp [hfa]
  | cons l t ih =>
    intro hline rest a A hpre hhl hfa
    have hl : startsWithHash l = true := hpre l (List.mem_cons_self _ _)
    have hpt : ∀ x ∈ t, startsWithHash x = true :=
      fun x hx => hpre x (List.mem_cons_of_mem _ hx)
    rw [foldAttrs] at hfa
    cases hce : containsEq l with
    | false =>
      rw [hce] at hfa
      simp only [Bool.false_eq_true, if_false] at hfa
      have hstep : scanFirst a ((l :: t) ++ hline :: rest)
          = scanFirst a (t ++ hline :: rest) := by
        rw [List.cons_append, scanFirst]
        simp [hl, hce]
      rw [hstep]
      exact ih hline rest a A hpt hhl hfa
    | true =>
      rw [hce] at hfa
      simp only [if_true] at hfa
      cases hp : parseAttrLine l with
      | error e =>
        rw [hp] at hfa
        exact absurd hfa (by simp)
      | ok kv =>
        rw [hp] at hfa
        have hstep : scanFirst a ((l :: t) ++ hline :: rest)
            = scanFirst (kv :: a) (t ++ hline :: rest) := by
          rw [List.cons_append, scanFirst]
          simp [hl, hce, hp]
        rw [hstep]
        exact ih hline rest (kv :: a) A hpt hhl hfa

/-- Claim C7: when the preamble of a single-chain file lacks
`output_samples` (or, for the multi-chain reader, the first file's
preamble lacks `num_samples` or `num_warmup`), the read fails with the
missing-key error (`KeyError`) at the point the header line is reached,
before any data row is stored, and no default value is substituted. -/
theorem c7_missing_attribute_error (pre : List Line) (hline : Line) (rest : List Line)
    (fs : List (List Line)) (summary w : Bool) (A : List (Line × Line))
    (hpre : ∀ l ∈ pre, startsWithHash l = true)
    (hhl : startsWithHash hline = false)
    (hA : foldAttrs [] pre = .ok A) :
    (alookup "output_samples".data A = none →
      read_one_stan_csv (pre ++ hline :: rest) summary = .error .keyError) ∧
    (alookup "num_samples".data A = none →
      read_stan_csv ((pre ++ hline :: rest) :: fs) w = .error .keyError) ∧
    (∀ (v : Line) (n : Int), alookup "num_samples".data A = some v → pyInt v = .ok n →
      alookup "num_warmup".data A = none →
      read_stan_csv ((pre ++ hline :: rest) :: fs) w = .error .keyError) := by
  have hscan : scanFirst [] (pre ++ hline :: rest)
      = .ok (splitOnChar ',' (pyStrip hline), A) :=
    scanFirst_preamble pre hline rest [] A hpre hhl hA
  refine ⟨?_, ?_, ?_⟩
  · intro h1
    have hstep : stepOne summary ⟨true, none, A, 0, 0, [], true⟩ hline
        = .error .keyError := by
      simp [stepOne, hhl, h1]
    rw [read_one_stan_csv, readOneLoop_append,
      readOneLoop_preamble summary pre [] A hpre hA]
    simp [readOneLoop, hstep]
  · intro h2
    rw [read_stan_csv, readStanDraws, hscan]
    simp [h2]
  · intro v n hv hn h3
    rw [read_stan_csv, readStanDraws, hscan]
    simp [hv, hn, h3]

/-- Witness for C7: a preamble with only an unrelated attribute makes
both readers fail with the missing-key error; a preamble carrying only
`num_samples` makes the multi-chain reader fail on `num_warmup`. -/
theorem c7_missing_attribute_error_witness :
    read_one_stan_csv ["# foo = 1".data, "x,y".data] false = .error .keyError ∧
    read_stan_csv [["# foo = 1".data, "x,y".data]] false = .error .keyError ∧
    read_stan_csv [["# num_samples = 2".data, "x,y".data]] false = .error .keyError := by
  refine ⟨?_, ?_, ?_⟩
  · exact (c7_missing_attribute_error ["# foo = 1".data] "x,y".data [] [] false false
      [("foo".data, "1".data)] (by decide) rfl rfl).1 rfl
  · exact (c7_missing_attribute_error ["# foo = 1".data] "x,y".data [] [] false false
      [("foo".data, "1".data)] (by decide) rfl rfl).2.1 rfl
  · exact (c7_missing_attribute_error ["# num_samples = 2".data] "x,y".data [] [] false false
      [("num_samples".data, "2".data)] (by decide) rfl rfl).2.2 "2".data 2 rfl rfl rfl

/-- Claim C1 (code bug): with `include_summary = true` the reader does not
return `N+1` samples per base parameter.  The source allocates the buffer
with `niter+1` rows but calls `prepare_dict(header, niter)`, so the
containers hold only `N` cells: on a valid file (`output_samples = 2`,
three data rows) with an indexed parameter the scatter of the 3-long
column into a 2-long slot raises `ValueError`, and with a rank-0-only
header it returns length-`N` containers (left zero-filled by the rank-0
rebind).  With `include_summary = false` the behaviour claimed does hold:
the first data row is discarded and exactly `N` samples are returned. -/
theorem c1_summary_miscount :
    errOf (read_one_stan_csv
        ["# output_samples = 2".data, "mu.1".data, "0".data, "1".data, "2".data] true)
      = some .valueError ∧
    (exOk (read_one_stan_csv
        ["# output_samples = 2".data, "mu".data, "0".data, "1".data, "2".data] true)).map
        (fun r => alookup "mu".data r.1)
      = some (some (zerosCont [2])) ∧
    (exOk (read_one_stan_csv
        ["# output_samples = 2".data, "x.1".data, "9".data, "1".data, "2".data] false)).map
        (fun r => alookup "x".data r.1)
      = some (some (.arr [.vec [some 1, some 2]])) :=
  ⟨rfl, rfl, rfl⟩

/-- Claim C2 (code bug): for a base with no dotted suffix the scatter step
executes `arr = draw_values`, which rebinds a local variable only, so the
returned entry stays the zero-filled allocation instead of the column
data.  Here header `["lp","mu"]`, `output_samples = 3`, and mu's column is
`[1,2,3]`, yet the returned `Extract["mu"]` is `[0,0,0]`. -/
theorem c2_rank0_rebind_lost :
    (exOk (read_one_stan_csv
        ["# output_samples = 3".data, "lp,mu".data,
         "9,9".data, "0,1".data, "0,2".data, "0,3".data] false)).map
        (fun r => alookup "mu".data r.1)
      = some (some (.vec [some 0, some 0, some 0])) ∧
    ([some 0, some 0, some 0] : List (Option Rat)) ≠ [some 1, some 2, some 3] :=
  ⟨rfl, by decide⟩

/-- Claim C3: for header `["mu","sigma.1","sigma.2"]` with 5 samples the
grouped-and-scattered result for `sigma` has shape `(2,5)` with row 0 the
column of `sigma.1`; for header `["beta.1.1","beta.1.2","beta.2.1",
"beta.2.2"]` with 4 samples the result for `beta` has shape `(2,2,4)` with
cell `[1][0]` the column of `beta.2.1` - for any column data. -/
theorem c3_indexed_scatter (d : Fin 5 → Fin 3 → Rat) (e : Fin 4 → Fin 4 → Rat) :
    (exOk (groupScatter ["mu".data, "sigma.1".data, "sigma.2".data] 5
        ((List.finRange 5).map (fun i => some ((List.finRange 3).map (fun j => d i j)))))).bind
        (alookup "sigma".data)
      = some (.arr [.vec ((List.finRange 5).map fun i => some (d i 1)),
                    .vec ((List.finRange 5).map fun i => some (d i 2))]) ∧
    (exOk (groupScatter
        ["beta.1.1".data, "beta.1.2".data, "beta.2.1".data, "beta.2.2".data] 4
        ((List.finRange 4).map (fun i => some ((List.finRange 4).map (fun j => e i j)))))).bind
        (alookup "beta".data)
      = some (.arr
          [.arr [.vec ((List.finRange 4).map fun i => some (e i 0)),
                 .vec ((List.finRange 4).map fun i => some (e i 1))],
           .arr [.vec ((List.finRange 4).map fun i => some (e i 2)),
                 .vec ((List.finRange 4).map fun i => some (e i 3))]]) :=
  ⟨rfl, rfl⟩

/-- Witness for C3 at concrete column data. -/
theorem c3_indexed_scatter_witness :
    (exOk (groupScatter ["mu".data, "sigma.1".data, "sigma.2".data] 5
        ((List.finRange 5).map (fun i => some ((List.finRange 3).map
          (fun j => (1 + 3 * (i : Nat) + (j : Nat) : Rat))))))).bind
        (alookup "sigma".data)
      = some (.arr [.vec ((List.finRange 5).map fun i =>
                      some (1 + 3 * (i : Nat) + ((1 : Fin 3) : Nat) : Rat)),
                    .vec ((List.finRange 5).map fun i =>
                      some (1 + 3 * (i : Nat) + ((2 : Fin 3) : Nat) : Rat))]) ∧
    (exOk (groupScatter
        ["beta.1.1".data, "beta.1.2".data, "beta.2.1".data, "beta.2.2".data] 4
        ((List.finRange 4).map (fun i => some ((List.finRange 4).map
          (fun j => (10 * (i : Nat) + (j : Nat) : Rat))))))).bind
        (alookup "beta".data)
      = some (.arr
          [.arr [.vec ((List.finRange 4).map fun i =>
                    some (10 * (i : Nat) + ((0 : Fin 4) : Nat) : Rat)),
                 .vec ((List.finRange 4).map fun i =>
                    some (10 * (i : Nat) + ((1 : Fin 4) : Nat) : Rat))],
           .arr [.vec ((List.finRange 4).map fun i =>
                    some (10 * (i : Nat) + ((2 : Fin 4) : Nat) : Rat)),
                 .vec ((List.finRange 4).map fun i =>
                    some (10 * (i : Nat) + ((3 : Fin 4) : Nat) : Rat))]]) :=
  c3_indexed_scatter (fun i j => (1 + 3 * (i : Nat) + (j : Nat) : Rat))
    (fun i j => (10 * (i : Nat) + (j : Nat) : Rat))

/-- Claim C6: metadata parsing strips the comment marker and the
`(Default)` suffix, splits on `=` and trims both parts, so
`# num_samples = 100 (Default)` yields the string value `"100"`; the same
holds through the attribute branch of each reader's line loop. -/
theorem c6_attribute_roundtrip :
    parseAttrLine "# num_samples = 100 (Default)".data
      = .ok ("num_samples".data, "100".data) ∧
    stepOne false {} "# num_samples = 100 (Default)".data
      = .ok ⟨true, none, [("num_samples".data, "100".data)], 0, 0, [], true⟩ ∧
    scanFirst [] ["# num_samples = 100 (Default)".data, "lp__,x".data]
      = .ok (["lp__".data, "x".data], [("num_samples".data, "100".data)]) :=
  ⟨rfl, rfl, rfl⟩

/-- Claim C9 (code bug): a multi-chain read whose files yield fewer data
rows than the buffer capacity does not fail - the source performs no
check, so the `np.empty` buffer keeps uninitialized trailing rows and the
read returns a result built from them.  Here each of two chains declares
`num_samples = 2` but contributes one row: buffer row 2 is uninitialized,
and the returned `Extract["x"]` contains the uninitialized cells. -/
theorem c9_underfill_returns :
    (exOk (readStanDraws
        [["# num_samples = 2".data, "# num_warmup = 0".data, "lp__,x.1,x.2".data,
          "# Adaptation terminated".data, "1,2,3".data],
         ["# num_samples = 2".data, "# num_warmup = 0".data, "lp__,x.1,x.2".data,
          "# Adaptation terminated".data, "4,5,6".data]] false)).map
        (fun r => r.2.2.2[2]?)
      = some (some none) ∧
    (exOk (read_stan_csv
        [["# num_samples = 2".data, "# num_warmup = 0".data, "lp__,x.1,x.2".data,
          "# Adaptation terminated".data, "1,2,3".data],
         ["# num_samples = 2".data, "# num_warmup = 0".data, "lp__,x.1,x.2".data,
          "# Adaptation terminated".data, "4,5,6".data]] false)).map
        (fun r => alookup "x".data r.1)
      = some (some (.arr [.vec [some 2, some 5, none, none],
                          .vec [some 3, some 6, none, none]])) :=
  ⟨rfl, rfl⟩

/-- When the buffer has room for all of them, the per-file loop appends
exactly the accepted rows of the file after the rows already written. -/
theorem chainLoop_of_accepted (w : Bool) (ncols cap : Nat) :
    ∀ (lines : List Line) (ws : Bool) (rows d : List (List Rat)),
      acceptedRows w ncols ws lines = .ok d →
      rows.length + d.length ≤ cap →
      chainLoop w ncols cap ws rows lines = .ok (rows ++ d) := by
  intro lines
  induction lines with
  | nil =>
    intro ws rows d hacc _
    simp only [acceptedRows, Except.ok.injEq] at hacc
    rw [chainLoop, ← hacc, List.append_nil]
  | cons line rest ih =>
    intro ws rows d hacc hlen
    simp only [acceptedRows] at hacc
    simp only [chainLoop]
    cases hs : sentinelMark line with
    | true =>
      simp only [hs, eq_self_iff_true, if_true] at hacc ⊢
      by_cases hv : (splitOnChar ',' (pyStrip line)).length ≤ 1
      · simp only [if_pos hv] at hacc ⊢
        exact ih false rows d hacc hlen
      · simp only [if_neg hv] at hacc ⊢
        cases hp : parseRowMulti ncols (splitOnChar ',' (pyStrip line)) with
        | error e =>
          rw [hp] at hacc
          exact absurd hacc (by simp)
        | ok row =>
          rw [hp] at hacc
          cases hrest : acceptedRows w ncols false rest with
          | error e =>
            rw [hrest] at hacc
            exact absurd hacc (by simp)
          | ok dr =>
            rw [hrest] at hacc
            simp only [Except.ok.injEq] at hacc
            subst hacc
            simp only [List.length_cons] at hlen
            have hlt : rows.length < cap := by omega
            simp only [if_pos hlt]
            have hih := ih false (rows ++ [row]) dr hrest (by
              simp only [List.length_append, List.length_cons, List.length_nil]
              omega)
            rw [hih, List.append_assoc]
            rfl
    | false =>
      simp only [hs, Bool.false_eq_true, if_false] at hacc ⊢
      cases hskip : startsWithHash line || startsWithLp line with
      | true =>
        simp only [hskip, eq_self_iff_true, if_true] at hacc ⊢
        exact ih ws rows d hacc hlen
      | false =>
        simp only [hskip, Bool.false_eq_true, if_false] at hacc ⊢
        cases hw : !w && ws with
        | true =>
          simp only [hw, eq_self_iff_true, if_true] at hacc ⊢
          exact ih ws rows d hacc hlen
        | false =>
          simp only [hw, Bool.false_eq_true, if_false] at hacc ⊢
          by_cases hv : (splitOnChar ',' (pyStrip line)).length ≤ 1
          · simp only [if_pos hv] at hacc ⊢
            exact ih ws rows d hacc hlen
          · simp only [if_neg hv] at hacc ⊢
            cases hp : parseRowMulti ncols (splitOnChar ',' (pyStrip line)) with
            | error e =>
              rw [hp] at hacc
              exact absurd hacc (by simp)
            | ok row =>
              rw [hp] at hacc
              cases hrest : acceptedRows w ncols ws rest with
              | error e =>
                rw [hrest] at hacc
                exact absurd hacc (by simp)
              | ok dr =>
                rw [hrest] at hacc
                simp only [Except.ok.injEq] at hacc
                subst hacc
                simp only [List.length_cons] at hlen
                have hlt : rows.length < cap := by omega
                simp only [if_pos hlt]
                have hih := ih ws (rows ++ [row]) dr hrest (by
                  simp only [List.length_append, List.length_cons, List.length_nil]
                  omega)
                rw [hih, List.append_assoc]
                rfl

/-- Claim C8: the multi-chain reader processes the chain files strictly
in input order and appends each accepted row at the next free buffer
index without resetting the cursor between files, so for two chains where
the first contributes `k` rows, row `k` of the combined buffer is row 0
of the second chain's contributed rows. -/
theorem c8_chain_concatenation (f1 f2 : List Line) (w : Bool) (header : List Line)
    (attrs : List (Line × Line)) (v1 v2 : Line) (ns nw : Int) (cap : Nat)
    (r1 d2 : List (List Rat)) (k : Nat)
    (hscan : scanFirst [] f1 = .ok (header, attrs))
    (hv1 : alookup "num_samples".data attrs = some v1)
    (hn1 : pyInt v1 = .ok ns)
    (hv2 : alookup "num_warmup".data attrs = some v2)
    (hn2 : pyInt v2 = .ok nw)
    (hcapdef : (ns + (if w then nw else 0)) * 2 = (cap : Int))
    (hr1 : acceptedRows w header.length true f1 = .ok r1)
    (hr2 : acceptedRows w header.length true f2 = .ok d2)
    (hk : r1.length = k)
    (hne : d2 ≠ [])
    (hcap : k + d2.length ≤ cap) :
    readStanDraws [f1, f2] w
      = .ok (header, attrs, cap,
          (r1 ++ d2).map some ++ List.replicate (cap - (k + d2.length)) none) ∧
    ((r1 ++ d2).map some ++ List.replicate (cap - (k + d2.length)) none)[k]?
      = some (some (d2.headD [])) := by
  have hd2pos : 0 < d2.length := List.length_pos.mpr hne
  have hfold1 : chainLoop w header.length cap true [] f1 = .ok r1 := by
    have h := chainLoop_of_accepted w header.length cap f1 true [] r1 hr1
      (by simp only [List.length_nil]; omega)
    simpa using h
  have hfold2 : chainLoop w header.length cap true r1 f2 = .ok (r1 ++ d2) :=
    chainLoop_of_accepted w header.length cap f2 true r1 d2 hr2 (by omega)
  have hchain : chainFold w header.length cap [] [f1, f2] = .ok (r1 ++ d2) := by
    simp only [chainFold, hfold1, hfold2]
  constructor
  · simp only [readStanDraws, hscan, hv1, hn1, hv2, hn2]
    have hflen : ((List.length [f1, f2] : Nat) : Int) = 2 := rfl
    rw [hflen, hcapdef]
    have hnn : ¬ ((cap : Int) < 0) := by omega
    rw [if_neg hnn]
    rw [Int.toNat_natCast, hchain]
    simp only [List.length_append, hk]
  · obtain ⟨h0, t0, rfl⟩ := List.exists_cons_of_ne_nil hne
    rw [List.map_append, List.append_assoc]
    rw [List.getElem?_append_right (by simp [hk])]
    simp [hk]

/-- Witness for C8: two chains with `num_samples = 2`, warm-up excluded,
each contributing two rows; row 2 of the combined buffer is the first
row of chain 2. -/
theorem c8_chain_concatenation_witness :
    readStanDraws
        [["# num_samples = 2".data, "# num_warmup = 1".data, "lp__,x".data, "0.5,9".data,
          "# Adaptation terminated".data, "1,2".data, "3,4".data],
         ["# num_samples = 2".data, "# num_warmup = 1".data, "lp__,x".data, "0.5,9".data,
          "# Adaptation terminated".data, "5,6".data, "7,8".data]] false
      = .ok (["lp__".data, "x".data],
             [("num_warmup".data, "1".data), ("num_samples".data, "2".data)], 4,
             [some [1, 2], some [3, 4], some [5, 6], some [7, 8]]) ∧
    ([some [1, 2], some [3, 4], some [5, 6], some [7, 8]] : List (Option (List Rat)))[2]?
      = some (some [5, 6]) :=
  c8_chain_concatenation
    ["# num_samples = 2".data, "# num_warmup = 1".data, "lp__,x".data, "0.5,9".data,
     "# Adaptation terminated".data, "1,2".data, "3,4".data]
    ["# num_samples = 2".data, "# num_warmup = 1".data, "lp__,x".data, "0.5,9".data,
     "# Adaptation terminated".data, "5,6".data, "7,8".data]
    false ["lp__".data, "x".data]
    [("num_warmup".data, "1".data), ("num_samples".data, "2".data)]
    "2".data "1".data 2 1 4 [[1, 2], [3, 4]] [[5, 6], [7, 8]] 2
    rfl rfl rfl rfl rfl rfl rfl rfl rfl (by simp) (by decide)

/-- Claim C10, amended: every line beginning with `lp` is skipped by the
multi-chain loop and contributes no row.  With `include_warmup = true`
this prefix test is what excludes the header, and a header not beginning
with `lp` is processed as a data row (here failing numeric conversion);
with `include_warmup = false` the header line lies before the sentinel
and is instead discarded by the warm-up skip. -/
theorem c10_lp_skip :
    (∀ (w : Bool) (ncols cap : Nat) (ws : Bool) (rows : List (List Rat)) (l : Line)
       (rest : List Line), startsWithLp l = true →
         chainLoop w ncols cap ws rows (l :: rest) = chainLoop w ncols cap ws rows rest) ∧
    errOf (acceptedRows true 2 true ["alpha,beta".data]) = some .valueError ∧
    acceptedRows false 2 true
        ["alpha,beta".data, "# Adaptation terminated".data, "1,2".data]
      = .ok [[1, 2]] := by
  refine ⟨?_, rfl, rfl⟩
  intro w ncols cap ws rows l rest hlp
  obtain ⟨t, rfl⟩ := (leadsWith_iff "lp".data l).1 hlp
  have hsent : sentinelMark ("lp".data ++ t) = false := rfl
  simp only [chainLoop, hsent, Bool.false_eq_true, if_false, hlp, Bool.or_true,
    eq_self_iff_true, if_true]

/-- Witness for the amended C10: a header line `lp__,x` is skipped by the
prefix test. -/
theorem c10_lp_skip_witness :
    chainLoop false 2 4 true [] ["lp__,x".data, "1,2".data]
      = chainLoop false 2 4 true [] ["1,2".data] :=
  c10_lp_skip.1 false 2 4 true [] "lp__,x".data ["1,2".data] rfl

/-- Counterexample to claim C5: the source searches the pattern
`b(\..+)?$` anywhere in the column name (`re.search`, not a match
anchored at the start), so base `mu` does match the column `sigmu`, which
does not consist of `mu` followed by dot-digit groups - it does not even
start with `mu`.  The capture is observable: with header
`["mu.1","sigmu.3"]` the container allocated for `mu` takes its shape
from the suffix match `mu.3` of `sigmu.3`, extent 3 instead of 1. -/
theorem c5_substring_capture_cex :
    (reSearch "mu".data "sigmu".data).isSome = true ∧
    (∀ s : Line, "sigmu".data ≠ "mu".data ++ s) ∧
    (exOk (prepare_dict ["mu.1".data, "sigmu.3".data] 2)).map
        (fun r => alookup "mu".data r.1)
      = some (some (zerosCont [3, 2])) :=
  ⟨rfl, by
    refine fun s h => ?_
    injection h with h1 _
    exact absurd h1 (by decide), rfl⟩

/-- Counterexample to claim C10: with `include_warmup = false` a chain
file whose header does not begin with `lp` does not have its header line
processed as data - the header lies before the sentinel, so the warm-up
skip discards it and the read succeeds with the header line contributing
no row. -/
theorem c10_header_skip_cex :
    readStanDraws
        [["# num_samples = 1".data, "# num_warmup = 0".data, "alpha,beta".data,
          "# Adaptation terminated".data, "1,2".data]] false
      = .ok (["alpha".data, "beta".data],
             [("num_warmup".data, "0".data), ("num_samples".data, "1".data)],
             1, [some [1, 2]]) :=
  rfl

end Stanutils
